import Mathlib

/-!
Shallow embedding of the peer-to-peer chat application (src/App.tsx,
src/components/Chat.tsx and the gemini service module). React state updater
calls (setMessages, setParticipants, ...) are modelled as sequential pure
updates of a RoomState record; `peerInstance.current` is the `peerInstance`
field (an Option String holding the bound peer id); JS Sets become
insertion-ordered duplicate-free lists; the keyed connection object
`connectionsRef.current` becomes a list of Connection records keyed by
`peer`. Outbound `conn.send` calls and `conn.close` calls are collected in
an Effect record alongside the next state.
-/

namespace GeminiChat

/-- UserRole from src/types (enum HOST / MANAGER / GUEST). -/
inductive UserRole where
  | HOST
  | MANAGER
  | GUEST
deriving DecidableEq

/-- MessageType from src/types (enum USER / SYSTEM / AI). -/
inductive MessageType where
  | USER
  | SYSTEM
  | AI
deriving DecidableEq

/-- Reaction record from src/types. -/
structure Reaction where
  emoji : String
  senderId : String
  senderName : String
deriving DecidableEq

/-- ChatMessage record from src/types; `reactions` is non-optional here
(the source treats a missing list as empty via `msg.reactions || []`). -/
structure ChatMessage where
  id : String
  senderId : String
  senderName : String
  text : String
  timestamp : Nat
  type : MessageType
  reactions : List Reaction
deriving DecidableEq

/-- Participant record from src/types. -/
structure Participant where
  id : String
  name : String
  role : UserRole
  isHost : Bool
deriving DecidableEq

/-- The tagged protocol payloads sent over data connections (the `data.type`
dispatch in handleDataConnection of src/App.tsx). -/
inductive Data where
  | CHAT (payload : ChatMessage)
  | SYNC_PARTICIPANTS (payload : List Participant)
  | REACTION (messageId emoji senderId senderName action : String)
  | TYPING (userId : String) (isTyping : Bool)
  | KICKED (reason : Option String)
  | ADMIN_REQUEST (action targetId : String)
deriving DecidableEq

/-- One outbound `conn.send(payload)` call, recorded with the peer id the
connection belongs to. -/
structure Send where
  dest : String
  payload : Data
deriving DecidableEq

/-- One entry of `connectionsRef.current`: the remote peer id and whether
the link is currently open. -/
structure Connection where
  peer : String
  isOpen : Bool
deriving DecidableEq

/-- The per-process session state of the Room component in src/App.tsx:
React state (messages, participants, typingUsers, kickReason, peerId,
isHost) plus the refs (connectionsRef, bannedPeersRef, peerInstance). -/
structure RoomState where
  messages : List ChatMessage
  participants : List Participant
  typingUsers : List String
  connections : List Connection
  bannedPeers : List String
  kickReason : Option String
  peerId : String
  isHost : Bool
  peerInstance : Option String
  hostPeerId : String
deriving DecidableEq

/-- Result of running a handler: the next state, the `conn.send` calls it
made, and the peers whose connections it scheduled for `conn.close()`. -/
structure Effect where
  st : RoomState
  sends : List Send
  closes : List String
deriving DecidableEq

/-- JS `Set.add`: append if absent (sets preserve insertion order). -/
def insertSet (l : List String) (x : String) : List String :=
  if x ∈ l then l else l ++ [x]

/-- `connectionsRef.current[conn.peer] = conn`: replace the entry with that
key if present, otherwise append it. -/
def setConn (conns : List Connection) (c : Connection) : List Connection :=
  if conns.any (fun x => x.peer == c.peer) then
    conns.map (fun x => if x.peer = c.peer then c else x)
  else conns ++ [c]

/-- `id.substring(0, 4)` on the char level. -/
def strTake (s : String) (n : Nat) : String := ⟨s.data.take n⟩

/-- addParticipant from src/App.tsx lines 201-218. -/
def addParticipant (participants : List Participant) (id : String) (role : UserRole) :
    List Participant :=
  match participants.find? (fun p => p.id == id) with
  | some existing =>
      if existing.role ≠ role then
        participants.map (fun p =>
          if p.id = id then { p with role := role, isHost := decide (role = UserRole.HOST) }
          else p)
      else participants
  | none =>
      let name := if role = UserRole.HOST then "Host" else "User " ++ strTake id 4
      participants ++ [{ id := id, name := name, role := role,
                         isHost := decide (role = UserRole.HOST) }]

/-- removeParticipant from src/App.tsx lines 220-227: drop the participant
and delete its id from the typing set. -/
def removeParticipant (st : RoomState) (id : String) : RoomState :=
  { st with participants := st.participants.filter (fun p => !(p.id == id)),
            typingUsers := st.typingUsers.filter (fun u => !(u == id)) }

/-- The fallback push in broadcastParticipantList (lines 245-254): append a
synthesized GUEST entry for a connected peer missing from the list. -/
def fallbackPush (acc : List Participant) (cid : String) : List Participant :=
  if acc.any (fun p => p.id == cid) then acc
  else acc ++ [{ id := cid, name := "User " ++ strTake cid 4,
                 role := UserRole.GUEST, isHost := false }]

/-- The list reconciliation inside broadcastParticipantList (lines 237-254):
keep the entries whose id is the local id or a connected peer, then append
fallback entries for connected peers not yet listed. -/
def computeUpdatedList (myId : String) (connections : List Connection)
    (currentList : List Participant) : List Participant :=
  let connectedIds := connections.map (fun c => c.peer)
  let base := currentList.filter (fun p => decide (p.id = myId ∨ p.id ∈ connectedIds))
  connectedIds.foldl fallbackPush base

/-- broadcastParticipantList from src/App.tsx lines 231-265: reconcile the
directory against the connection registry and send the full list to every
open connection; no-op when the peer instance is gone. -/
def broadcastParticipantList (st : RoomState) : RoomState × List Send :=
  match st.peerInstance with
  | none => (st, [])
  | some myId =>
      let updatedList := computeUpdatedList myId st.connections st.participants
      ({ st with participants := updatedList },
       (st.connections.filter (fun c => c.isOpen)).map
         (fun c => { dest := c.peer, payload := Data.SYNC_PARTICIPANTS updatedList }))

/-- broadcastData from src/App.tsx lines 267-273: send `data` on every open
connection whose peer differs from the excluded one. -/
def broadcastData (st : RoomState) (data : Data) (excludePeerId : Option String) :
    List Send :=
  (st.connections.filter (fun c => c.isOpen && !(decide (some c.peer = excludePeerId)))).map
    (fun c => { dest := c.peer, payload := data })

/-- cleanup from src/App.tsx lines 187-197: destroy the peer instance,
clear connections, messages, participants, typing set and ban list.
(kickReason and the peerId React state are not reset there.) -/
def cleanup (st : RoomState) : RoomState :=
  { st with peerInstance := none, connections := [], messages := [],
            participants := [], typingUsers := [], bannedPeers := [] }

/-- JS `data.reason || fallback`: the empty string is falsy. -/
def orDefault (reason : Option String) (fallback : String) : String :=
  match reason with
  | some r => if r = "" then fallback else r
  | none => fallback

/-- executeAdminAction from src/App.tsx lines 372-408, run only on the Host
process. PROMOTE/DEMOTE update the role and re-broadcast the directory;
KICK sends KICKED and closes the target link when open; BAN additionally
adds the target to the ban list. Unknown actions do nothing. -/
def executeAdminAction (st : RoomState) (action targetId : String) : Effect :=
  if st.peerInstance ≠ some st.hostPeerId then { st := st, sends := [], closes := [] }
  else
    let conn := st.connections.find? (fun c => c.peer == targetId)
    if action = "PROMOTE" then
      let st1 := { st with participants := st.participants.map (fun p =>
        if p.id = targetId then { p with role := UserRole.MANAGER } else p) }
      let r := broadcastParticipantList st1
      { st := r.1, sends := r.2, closes := [] }
    else if action = "DEMOTE" then
      let st1 := { st with participants := st.participants.map (fun p =>
        if p.id = targetId then { p with role := UserRole.GUEST } else p) }
      let r := broadcastParticipantList st1
      { st := r.1, sends := r.2, closes := [] }
    else if action = "KICK" then
      match conn with
      | some c =>
          if c.isOpen then
            { st := st,
              sends := [{ dest := targetId,
                          payload := Data.KICKED (some "You have been kicked by an admin.") }],
              closes := [targetId] }
          else { st := st, sends := [], closes := [] }
      | none => { st := st, sends := [], closes := [] }
    else if action = "BAN" then
      let st1 := { st with bannedPeers := insertSet st.bannedPeers targetId }
      match conn with
      | some c =>
          if c.isOpen then
            { st := st1,
              sends := [{ dest := targetId,
                          payload := Data.KICKED (some "You have been banned from this room.") }],
              closes := [targetId] }
          else { st := st1, sends := [], closes := [] }
      | none => { st := st1, sends := [], closes := [] }
    else { st := st, sends := [], closes := [] }

/-- handleAdminRequest from src/App.tsx lines 410-427: the Host-side
authorization gate in front of executeAdminAction. -/
def handleAdminRequest (st : RoomState) (action targetId requesterId : String) : Effect :=
  match st.participants.find? (fun p => p.id == requesterId) with
  | none => { st := st, sends := [], closes := [] }
  | some requester =>
      if requester.role ≠ UserRole.MANAGER ∧ requester.role ≠ UserRole.HOST then
        { st := st, sends := [], closes := [] }
      else
        match st.participants.find? (fun p => p.id == targetId) with
        | none => { st := st, sends := [], closes := [] }
        | some target =>
            if target.role = UserRole.HOST then { st := st, sends := [], closes := [] }
            else if requester.role = UserRole.MANAGER ∧ target.role = UserRole.MANAGER then
              { st := st, sends := [], closes := [] }
            else executeAdminAction st action targetId

/-- The authorization conditions exactly as the specification words them
(spec section 4.5, checks 1-4), written independently of the control flow
of handleAdminRequest so the two can be compared: the requester holds role
MANAGER or HOST, the target exists, the target is not the HOST, and a
MANAGER never targets a MANAGER. -/
def adminChecksSpec (st : RoomState) (requesterId targetId : String) : Bool :=
  match st.participants.find? (fun p => p.id == requesterId),
        st.participants.find? (fun p => p.id == targetId) with
  | some r, some t =>
      decide (r.role = UserRole.MANAGER ∨ r.role = UserRole.HOST)
      && !(decide (t.role = UserRole.HOST))
      && !(decide (r.role = UserRole.MANAGER ∧ t.role = UserRole.MANAGER))
  | _, _ => false

/-- applyReaction: the inbound REACTION branch of the data handler
(src/App.tsx lines 314-329): on the message with the given id, a `remove`
action filters out the (senderId, emoji) entries, any other action appends
the reaction unless the pair is already present. -/
def applyReaction (messages : List ChatMessage)
    (messageId emoji senderId senderName action : String) : List ChatMessage :=
  messages.map (fun msg =>
    if msg.id = messageId then
      { msg with reactions :=
          if action = "remove" then
            msg.reactions.filter (fun r => !(r.senderId == senderId && r.emoji == emoji))
          else
            if msg.reactions.any (fun r => r.senderId == senderId && r.emoji == emoji) then
              msg.reactions
            else
              msg.reactions ++ [{ emoji := emoji, senderId := senderId,
                                  senderName := senderName }] }
    else msg)

/-- onData: the `conn.on(data)` dispatch of handleDataConnection
(src/App.tsx lines 302-356). `connPeer` is the peer of the connection the
payload arrived on. Each replicable branch updates local state and, when
this process holds the well-known host id, fans the payload out to every
other open connection. -/
def onData (st : RoomState) (connPeer : String) (data : Data) : Effect :=
  match data with
  | Data.CHAT message =>
      let newMessages :=
        if st.messages.any (fun m => m.id == message.id) then st.messages
        else st.messages ++ [message]
      let st1 := { st with messages := newMessages }
      let sends :=
        if st1.peerInstance = some st1.hostPeerId then
          broadcastData st1 data (some connPeer)
        else []
      { st := st1, sends := sends, closes := [] }
  | Data.SYNC_PARTICIPANTS payload =>
      { st := { st with participants := payload }, sends := [], closes := [] }
  | Data.REACTION messageId emoji senderId senderName action =>
      let newMessages := applyReaction st.messages messageId emoji senderId senderName action
      let st1 := { st with messages := newMessages }
      let sends :=
        if st1.peerInstance = some st1.hostPeerId then
          broadcastData st1 data (some connPeer)
        else []
      { st := st1, sends := sends, closes := [] }
  | Data.TYPING userId isTyping =>
      let newTyping :=
        if isTyping then insertSet st.typingUsers userId
        else st.typingUsers.filter (fun u => !(u == userId))
      let st1 := { st with typingUsers := newTyping }
      let sends :=
        if st1.peerInstance = some st1.hostPeerId then
          broadcastData st1 data (some connPeer)
        else []
      { st := st1, sends := sends, closes := [] }
  | Data.KICKED reason =>
      let st1 := { cleanup st with kickReason := some (orDefault reason "You have been kicked.") }
      { st := st1, sends := [], closes := [] }
  | Data.ADMIN_REQUEST action targetId =>
      if st.peerInstance = some st.hostPeerId then
        handleAdminRequest st action targetId connPeer
      else { st := st, sends := [], closes := [] }

/-- handleDataConnection registration step (src/App.tsx lines 277-290): on
the Host a connection from a banned peer is sent KICKED on open and closed
without ever being stored in the connection registry (the function returns
before attaching state-mutating handlers); otherwise the connection is
stored under its peer key. -/
def handleDataConnection (st : RoomState) (conn : Connection) : Effect :=
  if st.peerInstance = some st.hostPeerId ∧ conn.peer ∈ st.bannedPeers then
    { st := st,
      sends := [{ dest := conn.peer,
                  payload := Data.KICKED (some "You are banned from this room.") }],
      closes := [conn.peer] }
  else
    { st := { st with connections := setConn st.connections conn },
      sends := [], closes := [] }

/-- The `conn.on(open)` handler of a registered connection (src/App.tsx
lines 292-300): admit the remote peer (HOST role exactly for the
well-known host id) and, on the Host, re-broadcast the directory. -/
def connOnOpen (st : RoomState) (connPeer : String) : Effect :=
  let role := if connPeer = st.hostPeerId then UserRole.HOST else UserRole.GUEST
  let st1 := { st with participants := addParticipant st.participants connPeer role }
  if st1.peerInstance = some st1.hostPeerId then
    let r := broadcastParticipantList st1
    { st := r.1, sends := r.2, closes := [] }
  else { st := st1, sends := [], closes := [] }

/-- The `conn.on(close)` handler (src/App.tsx lines 358-365): drop the
registry entry; the Host then re-broadcasts the directory while a non-Host
process removes the peer from participants and the typing set. -/
def connOnClose (st : RoomState) (connPeer : String) : Effect :=
  let st1 := { st with connections := st.connections.filter (fun c => !(c.peer == connPeer)) }
  if st1.peerInstance = some st1.hostPeerId then
    let r := broadcastParticipantList st1
    { st := r.1, sends := r.2, closes := [] }
  else { st := removeParticipant st1 connPeer, sends := [], closes := [] }

/-- The myName lookup of sendMessage (src/App.tsx lines 536-537). -/
def localDisplayName (st : RoomState) : String :=
  match st.participants.find? (fun p => p.id == st.peerId) with
  | some p => p.name
  | none => if st.isHost then "Host" else "User"

/-- The message record a local send constructs (src/App.tsx lines 539-547). -/
def builtMessage (st : RoomState) (freshId text : String) (type : MessageType)
    (now : Nat) : ChatMessage :=
  { id := freshId, senderId := st.peerId,
    senderName := if type = MessageType.AI then "Gemini" else localDisplayName st,
    text := text, timestamp := now, type := type, reactions := [] }

/-- sendMessage from src/App.tsx lines 535-551. The uuid produced by
uuidv4() and the Date.now() timestamp enter as parameters. The new message
is appended to the log unconditionally and broadcast on every open link. -/
def sendMessage (st : RoomState) (freshId text : String) (type : MessageType)
    (now : Nat) : Effect :=
  let newMessage := builtMessage st freshId text type now
  { st := { st with messages := st.messages ++ [newMessage] },
    sends := broadcastData st (Data.CHAT newMessage) none,
    closes := [] }

/-- handleTyping from src/App.tsx lines 553-557: broadcast only, the local
typing set is not updated here. -/
def handleTyping (st : RoomState) (isTyping : Bool) : List Send :=
  broadcastData st (Data.TYPING st.peerId isTyping) none

/-- The senderId/emoji membership test used by the reaction toggle. -/
def hasReactedOn (msg : ChatMessage) (senderId emoji : String) : Bool :=
  msg.reactions.any (fun r => r.senderId == senderId && r.emoji == emoji)

/-- The per-message body of handleReaction (src/App.tsx lines 564-578):
on the matching message remove the (peerId, emoji) entries when the sender
already reacted, otherwise append a fresh entry at the end. -/
def toggleMsg (peerId senderName messageId emoji : String) (msg : ChatMessage) :
    ChatMessage :=
  if msg.id = messageId then
    { msg with reactions :=
        if hasReactedOn msg peerId emoji then
          msg.reactions.filter (fun r => !(r.senderId == peerId && r.emoji == emoji))
        else
          msg.reactions ++ [{ emoji := emoji, senderId := peerId,
                              senderName := senderName }] }
  else msg

/-- The `action` local of handleReaction: initialized to add and
overwritten by every matching message the map visits, so it ends as the
verdict of the last matching message (add when none matches). -/
def resolvedAction (messages : List ChatMessage) (peerId messageId emoji : String) :
    String :=
  messages.foldl (fun acc msg =>
    if msg.id = messageId then
      (if hasReactedOn msg peerId emoji then "remove" else "add")
    else acc) "add"

/-- The display-name lookup shared by sendMessage and handleReaction. -/
def senderNameOf (st : RoomState) : String :=
  match st.participants.find? (fun p => p.id == st.peerId) with
  | some p => p.name
  | none => "User"

/-- handleReaction from src/App.tsx lines 559-584: toggle the local state
optimistically and broadcast the REACTION payload carrying the resolved
action to every open link. -/
def handleReaction (st : RoomState) (messageId emoji : String) : Effect :=
  let senderName := senderNameOf st
  let action := resolvedAction st.messages st.peerId messageId emoji
  let st1 := { st with messages := st.messages.map (toggleMsg st.peerId senderName messageId emoji) }
  let sends := broadcastData st1 (Data.REACTION messageId emoji st.peerId senderName action) none
  { st := st1, sends := sends, closes := [] }

/-- ASCII lowercasing of one char, as toLowerCase acts on ASCII input. -/
def charLower (c : Char) : Char :=
  if 'A' ≤ c ∧ c ≤ 'Z' then Char.ofNat (c.toNat + 32) else c

/-- `text.toLowerCase()` (ASCII range). -/
def lowerStr (s : String) : String := ⟨s.data.map charLower⟩

/-- JS whitespace test for trim (space, tab, newline, carriage return). -/
def isWhitespaceChar (c : Char) : Bool :=
  c == ' ' || c == '\t' || c == '\n' || c == '\r'

/-- `inputValue.trim()`. -/
def strTrim (s : String) : String :=
  ⟨((s.data.dropWhile isWhitespaceChar).reverse.dropWhile isWhitespaceChar).reverse⟩

/-- List-level startsWith used to model `text.startsWith`. -/
def listIsStart : List Char → List Char → Bool
  | [], _ => true
  | _ :: _, [] => false
  | a :: pre, b :: l => a == b && listIsStart pre l

/-- List-level substring containment used to model `text.includes`. -/
def listContainsSub (sub : List Char) : List Char → Bool
  | [] => listIsStart sub []
  | c :: rest => listIsStart sub (c :: rest) || listContainsSub sub rest

/-- The AI trigger test of handleSend (src/components/Chat.tsx line 87):
the lowered text starts with the at-ai marker or contains gemini. -/
def invokesAI (text : String) : Bool :=
  listIsStart "@ai".data (lowerStr text).data
  || listContainsSub "gemini".data (lowerStr text).data

/-- The conversation context string built by generateAIResponse in the
gemini service module (src/unnamed/part_000 lines 11-13). -/
def buildContext (history : List ChatMessage) : String :=
  String.intercalate "\n" (history.map (fun msg => msg.senderName ++ ": " ++ msg.text))

/-- The prompt template of generateAIResponse (src/unnamed/part_000 lines
15-26), with the context and current message spliced in. -/
def buildPrompt (currentMessage : String) (history : List ChatMessage) : String :=
  "You are a helpful, friendly AI assistant participating in a group chat.\n"
  ++ "Use the following conversation context to answer the user\x27s request briefly and naturally.\n"
  ++ "CONTEXT:\n" ++ buildContext history ++ "\n"
  ++ "USER REQUEST:\n" ++ currentMessage ++ "\n"
  ++ "RESPONSE (Keep it under 100 words):"

/-- generateAIResponse from the gemini service module (src/unnamed/part_000
lines 6-38). The external model call enters as `callModel` returning an
Except; the whole body sits inside a try/catch, so a failing call is caught
HERE and turned into a fixed apology string returned as a normal value; an
empty reply text falls back to a fixed couldn\x27t-generate string. The
function itself never raises. -/
def generateAIResponse (callModel : String → Except String String)
    (currentMessage : String) (history : List ChatMessage) : String :=
  match callModel (buildPrompt currentMessage history) with
  | Except.ok t => if t = "" then "I couldn\x27t generate a response." else t
  | Except.error _ => "Sorry, I\x27m having trouble connecting to the AI right now."

/-- handleSend from src/components/Chat.tsx lines 70-99: trim the input,
send it as a USER message, and when the AI trigger fires call the
assistant and send its reply as an AI message; the catch branch appending
a SYSTEM glitch message fires only if generateAIResponse itself raises,
which the modelled (and actual) service never does. `idUser`/`idAI` are
the uuids the two sendMessage calls draw. -/
def handleSend (callModel : String → Except String String) (st : RoomState)
    (inputValue : String) (idUser idAI : String) (now : Nat) : Effect :=
  if strTrim inputValue = "" then { st := st, sends := [], closes := [] }
  else
    let text := strTrim inputValue
    let e1 := sendMessage st idUser text MessageType.USER now
    if invokesAI text then
      let response := generateAIResponse callModel text st.messages
      let e2 := sendMessage e1.st idAI response MessageType.AI now
      { st := e2.st, sends := e1.sends ++ e2.sends, closes := [] }
    else e1

/-- C1: on the Host, an ADMIN_REQUEST is executed exactly when all four
authorization checks of the spec pass; when any check fails the request
produces no state change (directory, registry, ban list), no sends and no
closes. In particular a MANAGER targeting a MANAGER changes nothing. -/
theorem C1_admin_request_guard (st : RoomState) (action targetId requesterId : String) :
    handleAdminRequest st action targetId requesterId =
      if adminChecksSpec st requesterId targetId then executeAdminAction st action targetId
      else { st := st, sends := [], closes := [] } := by
  unfold handleAdminRequest adminChecksSpec
  cases hreq : st.participants.find? (fun p => p.id == requesterId) with
  | none => simp
  | some r =>
      cases htgt : st.participants.find? (fun p => p.id == targetId) with
      | none =>
          obtain ⟨rid, rname, rrole, rhost⟩ := r
          cases rrole <;> simp
      | some t =>
          obtain ⟨rid, rname, rrole, rhost⟩ := r
          obtain ⟨tid, tname, trole, thost⟩ := t
          cases rrole <;> cases trole <;> simp

/-- A map whose function fixes every element of the list is the identity. -/
theorem map_eq_self_of_fix {α : Type} (f : α → α) (l : List α)
    (h : ∀ x ∈ l, f x = x) : l.map f = l := by
  induction l with
  | nil => rfl
  | cons a as ih =>
      simp only [List.map_cons, List.cons.injEq]
      exact ⟨h a (List.mem_cons_self a as), ih (fun x hx => h x (List.mem_cons_of_mem a hx))⟩

/-- Filtering on the negation of a predicate no element satisfies keeps the
whole list. -/
theorem filter_not_eq_self {α : Type} (p : α → Bool) (l : List α)
    (h : l.any p = false) : l.filter (fun a => !(p a)) = l := by
  induction l with
  | nil => rfl
  | cons a as ih =>
      simp only [List.any_cons, Bool.or_eq_false_iff] at h
      simp [List.filter_cons, h.1, ih h.2]

/-- After filtering out every element satisfying p, none is left. -/
theorem any_filter_not_false {α : Type} (p : α → Bool) (l : List α) :
    (l.filter (fun a => !(p a))).any p = false := by
  induction l with
  | nil => rfl
  | cons a as ih =>
      by_cases hp : p a = true
      · simp [List.filter_cons, hp, ih]
      · simp only [Bool.not_eq_true] at hp
        simp [List.filter_cons, hp, ih]

/-- The noDupIds invariant on the message log (spec invariant I2): no two
entries share an id. -/
def noDupIds (l : List ChatMessage) : Prop := (l.map (fun m => m.id)).Nodup

/-- C5: the KICKED branch of the data handler is fully unguarded: any
process (Host included) receiving KICKED on any connection, from any
sender, records the kick reason and tears down its entire session state
(messages, participants, typing set, connection registry, ban list, peer
instance). Nothing about the sender or the local role is consulted. -/
theorem C5_kicked_unconditional_teardown (st : RoomState) (connPeer : String)
    (reason : Option String) :
    onData st connPeer (Data.KICKED reason) =
      { st := { st with peerInstance := none, connections := [], messages := [],
                        participants := [], typingUsers := [], bannedPeers := [],
                        kickReason := some (orDefault reason "You have been kicked.") },
        sends := [], closes := [] } := rfl

/-- C2 (amended): deduplication by id is enforced on the inbound path only:
an inbound CHAT whose id is already present leaves the log unchanged, and
inbound CHAT handling preserves the no-duplicate-id invariant; a local send
appends unconditionally, so it preserves the invariant only when the
freshly generated uuid is not already in the log. -/
theorem C2_dedup_amended :
    (∀ (st : RoomState) (connPeer : String) (message : ChatMessage),
        message.id ∈ st.messages.map (fun m => m.id) →
        (onData st connPeer (Data.CHAT message)).st.messages = st.messages)
    ∧ (∀ (st : RoomState) (connPeer : String) (message : ChatMessage),
        noDupIds st.messages →
        noDupIds (onData st connPeer (Data.CHAT message)).st.messages)
    ∧ (∀ (st : RoomState) (freshId text : String) (type : MessageType) (now : Nat),
        noDupIds st.messages → freshId ∉ st.messages.map (fun m => m.id) →
        noDupIds (sendMessage st freshId text type now).st.messages) := by
  refine ⟨?_, ?_, ?_⟩
  · intro st connPeer message hmem
    have hany : st.messages.any (fun m => m.id == message.id) = true := by
      simp only [List.mem_map] at hmem
      obtain ⟨m, hm, hid⟩ := hmem
      simp only [List.any_eq_true]
      exact ⟨m, hm, by simp [hid]⟩
    simp [onData, hany]
  · intro st connPeer message hnd
    by_cases hany : st.messages.any (fun m => m.id == message.id) = true
    · simpa [onData, hany] using hnd
    · simp only [Bool.not_eq_true] at hany
      have hnotmem : message.id ∉ st.messages.map (fun m => m.id) := by
        intro hmem
        simp only [List.mem_map] at hmem
        obtain ⟨m, hm, hid⟩ := hmem
        have : st.messages.any (fun m => m.id == message.id) = true := by
          simp only [List.any_eq_true]
          exact ⟨m, hm, by simp [hid]⟩
        simp [this] at hany
      simp only [onData, hany, noDupIds, Bool.false_eq_true, if_false, List.map_append,
        List.map_cons, List.map_nil]
      exact List.Nodup.append hnd (List.nodup_singleton _)
        (by simpa [List.disjoint_singleton] using hnotmem)
  · intro st freshId text type now hnd hfresh
    simp only [sendMessage, noDupIds, List.map_append, List.map_cons, List.map_nil]
    exact List.Nodup.append hnd (List.nodup_singleton _)
      (by simpa [List.disjoint_singleton] using hfresh)

/-- A concrete state whose log already holds a message with id a. -/
def stC2 : RoomState :=
  { messages := [{ id := "a", senderId := "q", senderName := "Q", text := "hi",
                   timestamp := 0, type := MessageType.USER, reactions := [] }],
    participants := [], typingUsers := [], connections := [], bannedPeers := [],
    kickReason := none, peerId := "p", isHost := false, peerInstance := some "p",
    hostPeerId := "gemini-chat-host-ROOM" }

/-- An inbound copy of the message already in stC2. -/
def msgA2 : ChatMessage :=
  { id := "a", senderId := "q", senderName := "Q", text := "hi",
    timestamp := 0, type := MessageType.USER, reactions := [] }

/-- C2 (counterexample): the claim says appending a message whose id is
already in the log is a no-op for local sends too, but sendMessage appends
unconditionally: sending while the generated uuid equals an id already in
the log yields two entries with the same id. -/
theorem C2_counterexample :
    ((sendMessage stC2 "a" "again" MessageType.USER 1).st.messages.map
      (fun m => m.id)) = ["a", "a"] := by rfl

/-- C2 witness: the inbound-duplicate no-op conjunct applied at a concrete
log that already holds the id. -/
theorem C2_witness :
    "a" ∈ stC2.messages.map (fun m => m.id)
    ∧ (onData stC2 "c" (Data.CHAT msgA2)).st.messages = stC2.messages :=
  ⟨by decide, C2_dedup_amended.1 stC2 "c" msgA2 (by decide)⟩

/-- Soundness of broadcastData: every recorded send goes to an open
connection different from the excluded peer and carries exactly the given
payload. -/
theorem broadcastData_sends_sound (st : RoomState) (d : Data) (ex : String) (s : Send)
    (h : s ∈ broadcastData st d (some ex)) :
    s.dest ≠ ex ∧ s.payload = d ∧ ∃ c ∈ st.connections, c.peer = s.dest ∧ c.isOpen = true := by
  unfold broadcastData at h
  simp only [List.mem_map, List.mem_filter, Bool.and_eq_true, Bool.not_eq_true',
    decide_eq_false_iff_not] at h
  obtain ⟨c, ⟨hc, hopen, hne⟩, heq⟩ := h
  subst heq
  refine ⟨?_, rfl, c, hc, rfl, hopen⟩
  intro hd
  have hd2 : c.peer = ex := hd
  exact hne (by rw [hd2])

/-- Completeness of broadcastData: every open connection other than the
excluded peer receives the payload. -/
theorem broadcastData_sends_complete (st : RoomState) (d : Data) (ex : String)
    (c : Connection) (hc : c ∈ st.connections) (hopen : c.isOpen = true)
    (hne : c.peer ≠ ex) :
    ({ dest := c.peer, payload := d } : Send) ∈ broadcastData st d (some ex) := by
  unfold broadcastData
  simp only [List.mem_map, List.mem_filter, Bool.and_eq_true, Bool.not_eq_true',
    decide_eq_false_iff_not]
  exact ⟨c, ⟨hc, hopen, by simp [hne]⟩, rfl⟩

/-- The replicable message kinds of spec section 4.6. -/
def isReplicable : Data → Bool
  | Data.CHAT _ => true
  | Data.REACTION _ _ _ _ _ => true
  | Data.TYPING _ _ => true
  | _ => false

/-- On a replicable payload the data handler sends exactly the Host
fan-out (the state updates never touch the connection registry, so the
fan-out reads the incoming registry). -/
theorem onData_sends_eq (st : RoomState) (connPeer : String) (data : Data)
    (hrep : isReplicable data = true) :
    (onData st connPeer data).sends =
      if st.peerInstance = some st.hostPeerId then broadcastData st data (some connPeer)
      else [] := by
  cases data with
  | CHAT m => rfl
  | REACTION a b c d e => rfl
  | TYPING u b => rfl
  | SYNC_PARTICIPANTS l => simp [isReplicable] at hrep
  | KICKED r => simp [isReplicable] at hrep
  | ADMIN_REQUEST a t => simp [isReplicable] at hrep

/-- C4: for an inbound CHAT, REACTION or TYPING payload from link L, the
Host sends the identical payload on every other currently open connection
and never back on L, and every send targets an open registered connection;
a process that is not the Host sends nothing. A fresh inbound CHAT is also
applied to the local log before the fan-out. -/
theorem C4_host_relay (st : RoomState) (connPeer : String) (data : Data)
    (hrep : isReplicable data = true) :
    (∀ s ∈ (onData st connPeer data).sends,
        s.dest ≠ connPeer ∧ s.payload = data
        ∧ ∃ c ∈ st.connections, c.peer = s.dest ∧ c.isOpen = true)
    ∧ (st.peerInstance = some st.hostPeerId →
        ∀ c ∈ st.connections, c.isOpen = true → c.peer ≠ connPeer →
          ({ dest := c.peer, payload := data } : Send) ∈ (onData st connPeer data).sends)
    ∧ (st.peerInstance ≠ some st.hostPeerId → (onData st connPeer data).sends = [])
    ∧ (∀ m, data = Data.CHAT m → m.id ∉ st.messages.map (fun x => x.id) →
        (onData st connPeer data).st.messages = st.messages ++ [m]) := by
  have hsends := onData_sends_eq st connPeer data hrep
  refine ⟨?_, ?_, ?_, ?_⟩
  · intro s hs
    rw [hsends] at hs
    by_cases hhost : st.peerInstance = some st.hostPeerId
    · rw [if_pos hhost] at hs
      exact broadcastData_sends_sound st data connPeer s hs
    · rw [if_neg hhost] at hs
      exact absurd hs (List.not_mem_nil s)
  · intro hhost c hc hopen hne
    rw [hsends, if_pos hhost]
    exact broadcastData_sends_complete st data connPeer c hc hopen hne
  · intro hhost
    rw [hsends, if_neg hhost]
  · intro m hm hfresh
    subst hm
    have hany : st.messages.any (fun x => x.id == m.id) = false := by
      by_contra hx
      simp only [Bool.not_eq_false, List.any_eq_true] at hx
      obtain ⟨x, hxmem, hxid⟩ := hx
      simp only [beq_iff_eq] at hxid
      exact hfresh (List.mem_map.mpr ⟨x, hxmem, hxid⟩)
    simp [onData, hany]

/-- A concrete Host state with three registered links, one of them closed. -/
def stC4 : RoomState :=
  { messages := [], participants := [], typingUsers := [],
    connections := [{ peer := "L", isOpen := true }, { peer := "g2", isOpen := true },
                    { peer := "g3", isOpen := false }],
    bannedPeers := [], kickReason := none, peerId := "gemini-chat-host-R",
    isHost := true, peerInstance := some "gemini-chat-host-R",
    hostPeerId := "gemini-chat-host-R" }

/-- A concrete replicable payload. -/
def d4 : Data := Data.TYPING "L" true

/-- C4 witness: on the concrete Host state, the open link g2 (distinct from
the origin L) receives the identical payload. -/
theorem C4_witness :
    isReplicable d4 = true
    ∧ ({ dest := "g2", payload := d4 } : Send) ∈ (onData stC4 "L" d4).sends :=
  ⟨by decide,
   (C4_host_relay stC4 "L" d4 (by decide)).2.1 (by decide)
     { peer := "g2", isOpen := true } (by decide) (by decide) (by decide)⟩

/-- Elements produced by the fallbackPush folding step are either already
in the accumulator or carry one of the folded ids. -/
theorem mem_fallbackPush_foldl (ids : List String) (acc : List Participant)
    (p : Participant) (h : p ∈ ids.foldl fallbackPush acc) :
    p ∈ acc ∨ p.id ∈ ids := by
  induction ids generalizing acc with
  | nil => exact Or.inl (by simpa using h)
  | cons x xs ih =>
      simp only [List.foldl_cons] at h
      rcases ih (fallbackPush acc x) h with h1 | h1
      · unfold fallbackPush at h1
        by_cases hany : acc.any (fun q => q.id == x) = true
        · rw [if_pos hany] at h1
          exact Or.inl h1
        · rw [if_neg hany] at h1
          rcases List.mem_append.mp h1 with h2 | h2
          · exact Or.inl h2
          · right
            simp only [List.mem_singleton] at h2
            subst h2
            exact List.mem_cons_self x xs
      · exact Or.inr (List.mem_cons_of_mem x h1)

/-- Every entry of the reconciled participant list is the local identity or
a currently registered peer. -/
theorem mem_computeUpdatedList (myId : String) (conns : List Connection)
    (cur : List Participant) (p : Participant)
    (h : p ∈ computeUpdatedList myId conns cur) :
    p.id = myId ∨ p.id ∈ conns.map (fun c => c.peer) := by
  unfold computeUpdatedList at h
  rcases mem_fallbackPush_foldl _ _ _ h with h1 | h1
  · have h2 := List.mem_filter.mp h1
    exact of_decide_eq_true h2.2
  · exact Or.inr h1

/-- C3: an inbound connection from a banned identity, on the Host, is
answered with KICKED carrying the banned reason and scheduled for close,
while the session state (directory, registry, ban list, log) is left
untouched — the identity is never admitted; and any identity that is
neither the registered local peer instance nor in the connection registry
never occurs in the payload of a SYNC_PARTICIPANTS broadcast. -/
theorem C3_banned_rejected (st : RoomState) (conn : Connection)
    (hhost : st.peerInstance = some st.hostPeerId)
    (hban : conn.peer ∈ st.bannedPeers) :
    (handleDataConnection st conn =
      { st := st,
        sends := [{ dest := conn.peer,
                    payload := Data.KICKED (some "You are banned from this room.") }],
        closes := [conn.peer] })
    ∧ (∀ st2 : RoomState, conn.peer ∉ st2.connections.map (fun c => c.peer) →
        st2.peerInstance ≠ some conn.peer →
        ∀ s ∈ (broadcastParticipantList st2).2, ∀ pl,
          s.payload = Data.SYNC_PARTICIPANTS pl → ∀ p ∈ pl, p.id ≠ conn.peer) := by
  constructor
  · simp [handleDataConnection, hhost, hban]
  · intro st2 hmem hinst s hs pl hpl p hp hpid
    unfold broadcastParticipantList at hs
    cases hpi : st2.peerInstance with
    | none => rw [hpi] at hs; exact absurd hs (List.not_mem_nil s)
    | some myId =>
        rw [hpi] at hs
        simp only [List.mem_map] at hs
        obtain ⟨c, hc, hceq⟩ := hs
        have hpay : s.payload = Data.SYNC_PARTICIPANTS
            (computeUpdatedList myId st2.connections st2.participants) := by
          rw [← hceq]
        rw [hpl] at hpay
        have hpl2 : pl = computeUpdatedList myId st2.connections st2.participants := by
          injection hpay
        rw [hpl2] at hp
        rcases mem_computeUpdatedList myId st2.connections st2.participants p hp with h1 | h1
        · rw [hpid] at h1
          exact hinst (by rw [hpi, h1])
        · rw [hpid] at h1
          exact hmem h1

/-- A concrete Host state whose ban list holds the peer b. -/
def stC3 : RoomState :=
  { messages := [], participants := [], typingUsers := [], connections := [],
    bannedPeers := ["b"], kickReason := none, peerId := "gemini-chat-host-R",
    isHost := true, peerInstance := some "gemini-chat-host-R",
    hostPeerId := "gemini-chat-host-R" }

/-- C3 witness: the banned peer b connecting to the concrete Host state is
rejected with the banned KICKED reason and nothing is admitted. -/
theorem C3_witness :
    stC3.peerInstance = some stC3.hostPeerId
    ∧ "b" ∈ stC3.bannedPeers
    ∧ handleDataConnection stC3 { peer := "b", isOpen := false } =
        { st := stC3,
          sends := [{ dest := "b",
                      payload := Data.KICKED (some "You are banned from this room.") }],
          closes := ["b"] } :=
  ⟨rfl, by decide,
   (C3_banned_rejected stC3 { peer := "b", isOpen := false } rfl (by decide)).1⟩

/-- Invariant I3 of the spec: a reaction list holds no duplicate
(senderId, emoji) pair. -/
def pairsNodup (l : List Reaction) : Prop :=
  (l.map (fun r => (r.senderId, r.emoji))).Nodup

/-- Appending a reaction whose (senderId, emoji) pair is absent preserves
the no-duplicate-pair invariant. -/
theorem pairsNodup_append (l : List Reaction) (sid e sname : String)
    (hnd : pairsNodup l)
    (hany : l.any (fun r => r.senderId == sid && r.emoji == e) = false) :
    pairsNodup (l ++ [{ emoji := e, senderId := sid, senderName := sname }]) := by
  unfold pairsNodup at hnd ⊢
  rw [List.map_append]
  refine List.Nodup.append hnd (List.nodup_singleton _) ?_
  simp only [List.map_cons, List.map_nil]
  rw [List.disjoint_singleton]
  intro hmem
  simp only [List.mem_map] at hmem
  obtain ⟨r, hr, hpr⟩ := hmem
  have h1 : r.senderId = sid := congrArg Prod.fst hpr
  have h2 : r.emoji = e := congrArg Prod.snd hpr
  have : l.any (fun r => r.senderId == sid && r.emoji == e) = true := by
    simp only [List.any_eq_true]
    exact ⟨r, hr, by simp [h1, h2]⟩
  rw [this] at hany
  exact absurd hany (by decide)

/-- C8: applying an inbound REACTION preserves invariant I3 on every
message; an add whose (senderId, emoji) pair is already present on every
matching message is a no-op; and a REACTION whose messageId matches no log
entry leaves the log unchanged. -/
theorem C8_reaction_apply (msgs : List ChatMessage)
    (messageId emoji senderId senderName action : String) :
    ((∀ m ∈ msgs, pairsNodup m.reactions) →
       ∀ m ∈ applyReaction msgs messageId emoji senderId senderName action,
         pairsNodup m.reactions)
    ∧ (action = "add" →
       (∀ m ∈ msgs, m.id = messageId →
          m.reactions.any (fun r => r.senderId == senderId && r.emoji == emoji) = true) →
       applyReaction msgs messageId emoji senderId senderName action = msgs)
    ∧ ((∀ m ∈ msgs, m.id ≠ messageId) →
       applyReaction msgs messageId emoji senderId senderName action = msgs) := by
  refine ⟨?_, ?_, ?_⟩
  · intro hinv m hm
    unfold applyReaction at hm
    simp only [List.mem_map] at hm
    obtain ⟨m0, hm0, heq⟩ := hm
    subst heq
    by_cases hid : m0.id = messageId
    · rw [if_pos hid]
      by_cases hact : action = "remove"
      · rw [if_pos hact]
        show pairsNodup (m0.reactions.filter _)
        unfold pairsNodup
        exact List.Nodup.sublist
          (List.Sublist.map _ (List.filter_sublist m0.reactions)) (hinv m0 hm0)
      · rw [if_neg hact]
        by_cases hpres :
            m0.reactions.any (fun r => r.senderId == senderId && r.emoji == emoji) = true
        · rw [if_pos hpres]
          exact hinv m0 hm0
        · rw [if_neg hpres]
          exact pairsNodup_append m0.reactions senderId emoji senderName
            (hinv m0 hm0) (Bool.not_eq_true _ ▸ (Bool.of_not_eq_true hpres))
    · rw [if_neg hid]
      exact hinv m0 hm0
  · intro hact hall
    apply map_eq_self_of_fix
    intro m hm
    by_cases hid : m.id = messageId
    · rw [if_pos hid, if_neg (by rw [hact]; decide), if_pos (hall m hm hid)]
    · rw [if_neg hid]
  · intro hnone
    apply map_eq_self_of_fix
    intro m hm
    rw [if_neg (hnone m hm)]

/-- A concrete message already carrying the (s, e) reaction pair. -/
def m8 : ChatMessage :=
  { id := "m", senderId := "q", senderName := "Q", text := "t", timestamp := 0,
    type := MessageType.USER,
    reactions := [{ emoji := "e", senderId := "s", senderName := "S" }] }

/-- C8 witness: an inbound add for the already-present pair on the concrete
one-message log changes nothing. -/
theorem C8_witness :
    (∀ m ∈ [m8], m.id = "m" →
        m.reactions.any (fun r => r.senderId == "s" && r.emoji == "e") = true)
    ∧ applyReaction [m8] "m" "e" "s" "S2" "add" = [m8] :=
  ⟨by decide, (C8_reaction_apply [m8] "m" "e" "s" "S2" "add").2.1 rfl (by decide)⟩

/-- Toggling twice on a message where the sender holds no (peerId, emoji)
reaction restores the message exactly, whatever display names the two
toggles resolve. -/
theorem toggleMsg_twice_of_not_reacted (peerId n1 n2 messageId emoji : String)
    (m : ChatMessage)
    (hm : m.id = messageId → hasReactedOn m peerId emoji = false) :
    toggleMsg peerId n2 messageId emoji (toggleMsg peerId n1 messageId emoji m) = m := by
  by_cases hid : m.id = messageId
  · have hr := hm hid
    obtain ⟨mid, msid, msn, mtext, mts, mty, mre⟩ := m
    have hid2 : mid = messageId := hid
    subst hid2
    have hr2 : mre.any (fun r => r.senderId == peerId && r.emoji == emoji) = false := hr
    simp [toggleMsg, hasReactedOn, hr2, List.filter_append, filter_not_eq_self _ _ hr2]
    intro a ha
    by_contra hcon
    push_neg at hcon
    have : mre.any (fun r => r.senderId == peerId && r.emoji == emoji) = true := by
      simp only [List.any_eq_true]
      exact ⟨a, ha, by simp [hcon.1, hcon.2]⟩
    rw [this] at hr2
    exact absurd hr2 (by decide)
  · unfold toggleMsg
    rw [if_neg hid, if_neg hid]

/-- C6 (amended): the double toggle restores the message log exactly
whenever the acting sender held no (messageId, emoji) reaction beforehand;
when the sender did hold one, the round trip removes the stored entry and
appends a fresh one at the end of the list (with the currently resolved
display name), so the list can come back reordered or renamed even though
the (senderId, emoji) pair set is restored. -/
theorem C6_double_toggle_amended (st : RoomState) (messageId emoji : String)
    (h : ∀ m ∈ st.messages, m.id = messageId →
        hasReactedOn m st.peerId emoji = false) :
    (handleReaction (handleReaction st messageId emoji).st messageId emoji).st.messages
      = st.messages := by
  show (st.messages.map (toggleMsg st.peerId (senderNameOf st) messageId emoji)).map
      (toggleMsg st.peerId _ messageId emoji) = st.messages
  rw [List.map_map]
  apply map_eq_self_of_fix
  intro m hm
  exact toggleMsg_twice_of_not_reacted st.peerId (senderNameOf st) _ messageId emoji m
    (h m hm)

/-- A concrete state whose single message carries the acting sender p
reaction first and another reaction second. -/
def stC6 : RoomState :=
  { messages := [{ id := "m", senderId := "q", senderName := "Q", text := "t",
                   timestamp := 0, type := MessageType.USER,
                   reactions := [{ emoji := "e", senderId := "p", senderName := "P" },
                                 { emoji := "f", senderId := "q", senderName := "Q" }] }],
    participants := [], typingUsers := [], connections := [], bannedPeers := [],
    kickReason := none, peerId := "p", isHost := false, peerInstance := some "p",
    hostPeerId := "gemini-chat-host-R" }

/-- C6 (counterexample): when the sender already holds the reaction, the
double toggle does not return the reaction list to its original value: the
re-added entry lands at the end of the list (and under the freshly
resolved display name), so the log differs from the original. -/
theorem C6_counterexample :
    (handleReaction (handleReaction stC6 "m" "e").st "m" "e").st.messages
      ≠ stC6.messages := by decide

/-- The same state with the sender reaction absent. -/
def stC6b : RoomState :=
  { messages := [{ id := "m", senderId := "q", senderName := "Q", text := "t",
                   timestamp := 0, type := MessageType.USER,
                   reactions := [{ emoji := "f", senderId := "q", senderName := "Q" }] }],
    participants := [], typingUsers := [], connections := [], bannedPeers := [],
    kickReason := none, peerId := "p", isHost := false, peerInstance := some "p",
    hostPeerId := "gemini-chat-host-R" }

/-- C6 witness: on the concrete state where the sender has not reacted, the
double toggle is the identity on the log. -/
theorem C6_witness :
    (∀ m ∈ stC6b.messages, m.id = "m" → hasReactedOn m stC6b.peerId "e" = false)
    ∧ (handleReaction (handleReaction stC6b "m" "e").st "m" "e").st.messages
        = stC6b.messages :=
  ⟨by decide, C6_double_toggle_amended stC6b "m" "e" (by decide)⟩

/-- The fold computing the action local leaves the accumulator untouched
over a stretch with no matching message. -/
theorem resolvedAction_foldl_no_match (messageId peerId emoji : String)
    (ms : List ChatMessage) (acc : String)
    (h : ∀ x ∈ ms, ¬(x.id = messageId)) :
    ms.foldl (fun acc msg =>
      if msg.id = messageId then
        (if hasReactedOn msg peerId emoji then "remove" else "add")
      else acc) acc = acc := by
  induction ms generalizing acc with
  | nil => rfl
  | cons x xs ih =>
      simp only [List.foldl_cons]
      rw [if_neg (h x (List.mem_cons_self x xs))]
      exact ih acc (fun y hy => h y (List.mem_cons_of_mem x hy))

/-- With at most one matching message in the log, the action local resolves
to remove exactly when some matching message already carries the acting
sender reaction. -/
theorem resolvedAction_spec (msgs : List ChatMessage) (peerId messageId emoji : String)
    (h : (msgs.filter (fun m => decide (m.id = messageId))).length ≤ 1) :
    resolvedAction msgs peerId messageId emoji =
      if msgs.any (fun m => decide (m.id = messageId) && hasReactedOn m peerId emoji)
      then "remove" else "add" := by
  induction msgs with
  | nil => rfl
  | cons m ms ih =>
      by_cases hid : m.id = messageId
      · have hflen : (ms.filter (fun m => decide (m.id = messageId))).length = 0 := by
          rw [List.filter_cons] at h
          simp only [hid, decide_True, if_true, List.length_cons] at h
          omega
        have hnone : ∀ x ∈ ms, ¬(x.id = messageId) := by
          intro x hx hxid
          have : x ∈ ms.filter (fun m => decide (m.id = messageId)) :=
            List.mem_filter.mpr ⟨hx, by simp [hxid]⟩
          rw [List.length_eq_zero.mp hflen] at this
          exact absurd this (List.not_mem_nil x)
        unfold resolvedAction
        simp only [List.foldl_cons]
        rw [if_pos hid]
        rw [resolvedAction_foldl_no_match messageId peerId emoji ms _ hnone]
        have hany2 : (ms.any (fun m => decide (m.id = messageId)
            && hasReactedOn m peerId emoji)) = false := by
          rw [List.any_eq_false]
          intro x hx
          simp only [Bool.and_eq_true, decide_eq_true_eq, not_and]
          intro hxid
          exact absurd hxid (hnone x hx)
        simp [List.any_cons, hid, hany2]
      · have hflen : (ms.filter (fun m => decide (m.id = messageId))).length ≤ 1 := by
          rw [List.filter_cons] at h
          simpa [hid] using h
        unfold resolvedAction
        simp only [List.foldl_cons]
        rw [if_neg hid]
        rw [show (ms.foldl (fun acc msg =>
          if msg.id = messageId then
            (if hasReactedOn msg peerId emoji then "remove" else "add")
          else acc) "add") = resolvedAction ms peerId messageId emoji from rfl]
        rw [ih hflen]
        simp [List.any_cons, hid]

/-- Every send produced by broadcastData carries the broadcast payload. -/
theorem broadcastData_payload (st : RoomState) (d : Data) (ex : Option String)
    (s : Send) (h : s ∈ broadcastData st d ex) : s.payload = d := by
  unfold broadcastData at h
  simp only [List.mem_map] at h
  obtain ⟨c, _, heq⟩ := h
  rw [← heq]

/-- A toggled matching message carries the sender reaction exactly when the
original did not. -/
theorem hasReactedOn_toggleMsg (peerId n messageId emoji : String) (m : ChatMessage)
    (hid : m.id = messageId) :
    hasReactedOn (toggleMsg peerId n messageId emoji m) peerId emoji
      = !(hasReactedOn m peerId emoji) := by
  unfold toggleMsg
  rw [if_pos hid]
  by_cases hr : hasReactedOn m peerId emoji = true
  · rw [if_pos hr, hr]
    show (m.reactions.filter _).any _ = false
    exact any_filter_not_false _ m.reactions
  · simp only [Bool.not_eq_true] at hr
    rw [if_neg (by rw [hr]; decide), hr]
    show (m.reactions ++ _).any _ = true
    simp

/-- With at most one matching message, the global already-reacted test
coincides with the test on any particular matching member. -/
theorem any_eq_of_unique_match (msgs : List ChatMessage) (messageId : String)
    (q : ChatMessage → Bool)
    (h : (msgs.filter (fun m => decide (m.id = messageId))).length ≤ 1)
    (m0 : ChatMessage) (hm0 : m0 ∈ msgs) (hid : m0.id = messageId) :
    msgs.any (fun m => decide (m.id = messageId) && q m) = q m0 := by
  induction msgs with
  | nil => exact absurd hm0 (List.not_mem_nil m0)
  | cons m ms ih =>
      by_cases hmid : m.id = messageId
      · have hflen : (ms.filter (fun m => decide (m.id = messageId))).length = 0 := by
          rw [List.filter_cons] at h
          simp only [hmid, decide_True, if_true, List.length_cons] at h
          omega
        have hnone : ∀ x ∈ ms, ¬(x.id = messageId) := by
          intro x hx hxid
          have : x ∈ ms.filter (fun m => decide (m.id = messageId)) :=
            List.mem_filter.mpr ⟨hx, by simp [hxid]⟩
          rw [List.length_eq_zero.mp hflen] at this
          exact absurd this (List.not_mem_nil x)
        have hm0eq : m0 = m := by
          rcases List.mem_cons.mp hm0 with h1 | h1
          · exact h1
          · exact absurd hid (hnone m0 h1)
        subst hm0eq
        have hany2 : (ms.any (fun m => decide (m.id = messageId) && q m)) = false := by
          rw [List.any_eq_false]
          intro x hx
          simp only [Bool.and_eq_true, decide_eq_true_eq, not_and]
          intro hxid
          exact absurd hxid (hnone x hx)
        simp [List.any_cons, hmid, hany2]
      · have hflen : (ms.filter (fun m => decide (m.id = messageId))).length ≤ 1 := by
          rw [List.filter_cons] at h
          simpa [hmid] using h
        have hm0mem : m0 ∈ ms := by
          rcases List.mem_cons.mp hm0 with h1 | h1
          · rw [h1] at hid; exact absurd hid hmid
          · exact h1
        rw [List.any_cons]
        simp only [hmid, decide_False, Bool.false_and, Bool.false_or]
        exact ih hflen hm0mem

/-- C7: when at most one log entry carries the toggled messageId, every
REACTION payload broadcast by the local toggle carries the resolved action
— remove exactly when the acting sender already had that (messageId,
emoji) reaction, add otherwise — and the action matches the mutation that
was applied locally: after the toggle each matching message carries the
sender reaction exactly when the action said add. -/
theorem C7_resolved_action (st : RoomState) (messageId emoji : String)
    (h : (st.messages.filter (fun m => decide (m.id = messageId))).length ≤ 1) :
    (∀ s ∈ (handleReaction st messageId emoji).sends,
        s.payload = Data.REACTION messageId emoji st.peerId (senderNameOf st)
          (if st.messages.any (fun m => decide (m.id = messageId)
              && hasReactedOn m st.peerId emoji) then "remove" else "add"))
    ∧ (∀ m ∈ (handleReaction st messageId emoji).st.messages, m.id = messageId →
        hasReactedOn m st.peerId emoji
          = !(st.messages.any (fun m2 => decide (m2.id = messageId)
              && hasReactedOn m2 st.peerId emoji))) := by
  constructor
  · intro s hs
    have hp := broadcastData_payload _ _ _ s hs
    rw [hp]
    rw [resolvedAction_spec st.messages st.peerId messageId emoji h]
  · intro m hm hid
    have hm2 : m ∈ st.messages.map
        (toggleMsg st.peerId (senderNameOf st) messageId emoji) := hm
    simp only [List.mem_map] at hm2
    obtain ⟨m0, hm0, heq⟩ := hm2
    by_cases hid0 : m0.id = messageId
    · rw [← heq, hasReactedOn_toggleMsg st.peerId (senderNameOf st) messageId emoji m0 hid0]
      rw [any_eq_of_unique_match st.messages messageId
        (fun m2 => hasReactedOn m2 st.peerId emoji) h m0 hm0 hid0]
    · rw [← heq] at hid
      unfold toggleMsg at hid
      rw [if_neg hid0] at hid
      exact absurd hid hid0

/-- A concrete state: one open link to the host, one message on which the
acting sender p already reacted with e. -/
def stC7 : RoomState :=
  { messages := [{ id := "m", senderId := "q", senderName := "Q", text := "t",
                   timestamp := 0, type := MessageType.USER,
                   reactions := [{ emoji := "e", senderId := "p", senderName := "P" }] }],
    participants := [], typingUsers := [],
    connections := [{ peer := "h", isOpen := true }], bannedPeers := [],
    kickReason := none, peerId := "p", isHost := false, peerInstance := some "p",
    hostPeerId := "gemini-chat-host-R" }

/-- C7 witness: the concrete toggle broadcasts the resolved remove action
on the open link. -/
theorem C7_witness :
    (stC7.messages.filter (fun m => decide (m.id = "m"))).length ≤ 1
    ∧ ({ dest := "h", payload := Data.REACTION "m" "e" "p" "User" "remove" } : Send).payload
        = Data.REACTION "m" "e" stC7.peerId (senderNameOf stC7)
            (if stC7.messages.any (fun m => decide (m.id = "m")
                && hasReactedOn m stC7.peerId "e") then "remove" else "add") :=
  ⟨by decide,
   (C7_resolved_action stC7 "m" "e" (by decide)).1
     { dest := "h", payload := Data.REACTION "m" "e" "p" "User" "remove" } (by decide)⟩

/-- A concrete Host state with a typing guest g whose link then closes. -/
def stC10 : RoomState :=
  { messages := [], participants := [], typingUsers := ["g"],
    connections := [{ peer := "g", isOpen := true }], bannedPeers := [],
    kickReason := none, peerId := "gemini-chat-host-R", isHost := true,
    peerInstance := some "gemini-chat-host-R", hostPeerId := "gemini-chat-host-R" }

/-- C10 (counterexample): the claim says an identity is removed from the
TypingSet when its peer link closes, but the Host close handler only
re-broadcasts the participant list and never touches the typing set: after
the typing guest g disconnects, g is still in the Host TypingSet. -/
theorem C10_counterexample :
    "g" ∈ (connOnClose stC10 "g").st.typingUsers := by decide

/-- C10 (amended): TypingSet membership equals the value of the last
TYPING event applied for the identity (and other identities are
unaffected); on link close only a non-Host process removes the closing
peer from the TypingSet, while the Host close handler leaves the TypingSet
unchanged (the entry persists until a later not-typing event or session
teardown). -/
theorem C10_typing_amended :
    (∀ (st : RoomState) (connPeer userId : String) (isTyping : Bool),
        (userId ∈ (onData st connPeer (Data.TYPING userId isTyping)).st.typingUsers
          ↔ isTyping = true)
        ∧ (∀ v, v ≠ userId →
            (v ∈ (onData st connPeer (Data.TYPING userId isTyping)).st.typingUsers
              ↔ v ∈ st.typingUsers)))
    ∧ (∀ (st : RoomState) (connPeer : String),
        st.peerInstance ≠ some st.hostPeerId →
        connPeer ∉ (connOnClose st connPeer).st.typingUsers)
    ∧ (∀ (st : RoomState) (connPeer : String),
        st.peerInstance = some st.hostPeerId →
        (connOnClose st connPeer).st.typingUsers = st.typingUsers) := by
  refine ⟨?_, ?_, ?_⟩
  · intro st connPeer userId isTyping
    constructor
    · show userId ∈ (if isTyping then insertSet st.typingUsers userId
          else st.typingUsers.filter (fun u => !(u == userId))) ↔ isTyping = true
      cases isTyping with
      | true =>
          simp only [if_true]
          unfold insertSet
          by_cases hmem : userId ∈ st.typingUsers
          · simp [hmem]
          · simp [hmem]
      | false =>
          simp only [if_false, Bool.false_eq_true, iff_false]
          intro hmem
          have := List.mem_filter.mp hmem
          simp at this
    · intro v hv
      show v ∈ (if isTyping then insertSet st.typingUsers userId
          else st.typingUsers.filter (fun u => !(u == userId))) ↔ v ∈ st.typingUsers
      cases isTyping with
      | true =>
          simp only [if_true]
          unfold insertSet
          by_cases hmem : userId ∈ st.typingUsers
          · simp [hmem]
          · simp [hmem, List.mem_append, hv]
      | false =>
          simp only [Bool.false_eq_true, if_false]
          constructor
          · intro hm
            exact (List.mem_filter.mp hm).1
          · intro hm
            exact List.mem_filter.mpr ⟨hm, by simp [hv]⟩
  · intro st connPeer hhost
    unfold connOnClose
    rw [if_neg hhost]
    intro hmem
    have := List.mem_filter.mp hmem
    simp at this
  · intro st connPeer hhost
    unfold connOnClose
    rw [if_pos hhost]
    show (broadcastParticipantList _).1.typingUsers = st.typingUsers
    unfold broadcastParticipantList
    rw [show ({ st with connections :=
        st.connections.filter (fun c => !(c.peer == connPeer)) } : RoomState).peerInstance
      = st.peerInstance from rfl, hhost]

/-- A concrete Guest state with a typing peer x whose link then closes. -/
def stC10b : RoomState :=
  { messages := [], participants := [], typingUsers := ["x"],
    connections := [{ peer := "x", isOpen := true }], bannedPeers := [],
    kickReason := none, peerId := "p", isHost := false,
    peerInstance := some "p", hostPeerId := "gemini-chat-host-R" }

/-- C10 witness: the non-Host close handler removes the closing peer from
the concrete typing set. -/
theorem C10_witness :
    stC10b.peerInstance ≠ some stC10b.hostPeerId
    ∧ "x" ∉ (connOnClose stC10b "x").st.typingUsers :=
  ⟨by decide, C10_typing_amended.2.1 stC10b "x" (by decide)⟩

/-- A concrete empty Guest session. -/
def stC9 : RoomState :=
  { messages := [], participants := [], typingUsers := [], connections := [],
    bannedPeers := [], kickReason := none, peerId := "p", isHost := false,
    peerInstance := some "p", hostPeerId := "gemini-chat-host-R" }

/-- C9 (counterexample): the claim says a failing external assistant call
yields exactly one SYSTEM message, but the failure is swallowed inside the
service function, which returns an apology string that handleSend appends
as a normal AI message: the messages appended for an at-ai send whose
external call fails are one USER and one AI message — no SYSTEM message at
all. -/
theorem C9_counterexample :
    ((handleSend (fun _ => Except.error "network") stC9 "@ai" "u1" "a1" 0).st.messages.map
        (fun m => m.type)) = [MessageType.USER, MessageType.AI] := by rfl

/-- C9 (amended): when the external assistant call fails on an AI-invoking
send, the failure is caught inside the assistant service, which returns a
fixed apology string; handleSend appends exactly two messages — the USER
message and one AI message named Gemini carrying the apology — and leaves
every other part of the session state untouched; no SYSTEM message is
produced and no error is raised. -/
theorem C9_assistant_failure_amended (st : RoomState)
    (callModel : String → Except String String) (inputValue idUser idAI : String)
    (now : Nat)
    (hfail : ∀ prompt, ∃ err, callModel prompt = Except.error err)
    (htrim : ¬(strTrim inputValue = ""))
    (hai : invokesAI (strTrim inputValue) = true) :
    (handleSend callModel st inputValue idUser idAI now).st
      = { st with messages := st.messages
          ++ [builtMessage st idUser (strTrim inputValue) MessageType.USER now,
              { id := idAI, senderId := st.peerId, senderName := "Gemini",
                text := "Sorry, I\x27m having trouble connecting to the AI right now.",
                timestamp := now, type := MessageType.AI, reactions := [] }] } := by
  obtain ⟨err, herr⟩ := hfail (buildPrompt (strTrim inputValue) st.messages)
  unfold handleSend
  rw [if_neg htrim]
  simp only [hai, if_true, generateAIResponse, herr, sendMessage]
  rw [List.append_assoc]
  rfl

/-- C9 witness: the amended theorem applied to a failing model call on the
concrete empty session with the at-ai input. -/
theorem C9_witness :
    (¬(strTrim "@ai" = ""))
    ∧ invokesAI (strTrim "@ai") = true
    ∧ (handleSend (fun _ => Except.error "boom") stC9 "@ai" "u2" "a2" 7).st
        = { stC9 with messages := stC9.messages
            ++ [builtMessage stC9 "u2" (strTrim "@ai") MessageType.USER 7,
                { id := "a2", senderId := stC9.peerId, senderName := "Gemini",
                  text := "Sorry, I\x27m having trouble connecting to the AI right now.",
                  timestamp := 7, type := MessageType.AI, reactions := [] }] } :=
  ⟨by decide, by decide,
   C9_assistant_failure_amended stC9 (fun _ => Except.error "boom") "@ai" "u2" "a2" 7
     (fun _ => ⟨"boom", rfl⟩) (by decide) (by decide)⟩

end GeminiChat
